import Mathlib

/-!
Shallow embedding of the chainpulse event-indexing pipeline:
data model (shared/types), durable-store operations (shared/database/database.go),
reorg handling (ReorgHandler), checkpoint/resume/replay (ResumeService),
batch persistence (BatchProcessor), idempotency gate (IdempotencyService)
and the cache-aside read path (IndexerService.GetEvents).

Conventions: Go `*big.Int` block numbers are Lean `Int`; hex strings
(hashes, addresses) are Lean `String`; SQL tables are lists of rows
(the autoincrement primary key and timestamp columns are omitted from rows
except where an operation depends on them); infrastructure failures
(connection loss) are out of scope, but SQL-level errors that are decided
by the schema (missing column, `gorm.ErrRecordNotFound`) are modelled.
-/

/-- Row of the `events` table (shared/types IndexedEvent).
gorm tags: ID primaryKey; BlockNumber, TxHash, EventName, Contract are
plain (non-unique) indexes. No unique constraint exists on this table. -/
structure IndexedEvent where
  blockNumber : Int
  txHash : String
  eventName : String
  contract : String
  fromAddr : String
  toAddr : String
  tokenId : String
  value : String
deriving DecidableEq

/-- Row of the checkpoint table (shared/types LastProcessedBlock):
one row per chain id, block number + block hash.
`createdAt` models the gorm CreatedAt column (used by `ORDER BY created_at DESC`). -/
structure LastProcessedBlock where
  blockNumber : Int
  blockHash : String
  chainId : String
  createdAt : Nat
deriving DecidableEq

/-- Row of the processed-marker table (shared/types ProcessedEvent).
Fields of the Go struct: ID (primaryKey), EventKey (`gorm:"index;unique"`),
Processed, Timestamp. Note: there is NO block-number field. -/
structure ProcessedEvent where
  eventKey : String
  processed : Bool
deriving DecidableEq

/-- shared/types EventFilter. -/
structure EventFilter where
  eventType : String
  contract : String
  fromBlock : Option Int
  toBlock : Option Int
  limit : Int
  offset : Int
deriving DecidableEq

/-- The durable store: contents of the three tables plus a logical clock
feeding the CreatedAt column of newly created checkpoint rows. -/
structure Database where
  events : List IndexedEvent
  checkpoints : List LastProcessedBlock
  processedEvents : List ProcessedEvent
  clock : Nat
deriving DecidableEq

def Database.empty : Database := ⟨[], [], [], 0⟩

/-- Errors surfaced by the store that the embedded code branches on. -/
inductive DbError where
  | recordNotFound
  | undefinedColumn
deriving DecidableEq

/-- Columns of the `events` table, as created by gorm AutoMigrate from
the IndexedEvent struct. -/
def indexedEventColumns : List String :=
  ["id", "block_number", "tx_hash", "event_name", "contract", "from", "to",
   "token_id", "value", "timestamp", "created_at", "updated_at"]

/-- Columns of the processed-marker table, as created by gorm AutoMigrate from
the ProcessedEvent struct: id, event_key, processed, timestamp. -/
def processedEventColumns : List String :=
  ["id", "event_key", "processed", "timestamp"]

/-- Integer-valued column projection for `events` rows. -/
def IndexedEvent.intColumn (e : IndexedEvent) : String → Option Int
  | "block_number" => some e.blockNumber
  | _ => none

/-- Integer-valued column projection for processed-marker rows: none exist. -/
def ProcessedEvent.intColumn (_ : ProcessedEvent) : String → Option Int :=
  fun _ => none

/-- Raw `DELETE FROM t WHERE col >= bound` against a table with the given schema:
Postgres rejects the statement if `col` is not a column of the table;
otherwise the rows satisfying the predicate are removed. -/
def sqlDeleteGeInt {ρ : Type} (schema : List String) (intColumn : ρ → String → Option Int)
    (rows : List ρ) (col : String) (bound : Int) : Except DbError (List ρ) :=
  if col ∈ schema then
    Except.ok (rows.filter fun r =>
      match intColumn r col with
      | some v => decide (v < bound)
      | none => true)
  else Except.error DbError.undefinedColumn

/-- database.go DeleteEventsFromBlock: `DELETE FROM events WHERE block_number >= ?`. -/
def Database.deleteEventsFromBlock (db : Database) (blockNumber : Int) : Except DbError Database :=
  (sqlDeleteGeInt indexedEventColumns IndexedEvent.intColumn db.events "block_number" blockNumber).map
    fun evs => { db with events := evs }

/-- database.go DeleteProcessedEventsFromBlock:
`DELETE FROM processed_events WHERE block_number >= ?`. -/
def Database.deleteProcessedEventsFromBlock (db : Database) (blockNumber : Int) :
    Except DbError Database :=
  (sqlDeleteGeInt processedEventColumns ProcessedEvent.intColumn db.processedEvents
      "block_number" blockNumber).map
    fun rows => { db with processedEvents := rows }

/-- The hard-coded chain id used by the checkpoint operations in database.go. -/
def defaultChainId : String := "ethereum_mainnet"

/-- Update the first row satisfying `p` (gorm First + Save touches one row). -/
def updateFirst {α : Type} (p : α → Bool) (f : α → α) : List α → List α
  | [] => []
  | x :: xs => if p x then f x :: xs else x :: updateFirst p f xs

/-- database.go SaveLastProcessedBlock: find the row for the default chain;
update its block number if present, else create the row. -/
def Database.saveLastProcessedBlock (db : Database) (blockNum : Int) : Database :=
  match db.checkpoints.find? (fun r => r.chainId == defaultChainId) with
  | some _ =>
    let cps := updateFirst (fun r => r.chainId == defaultChainId)
      (fun r => { r with blockNumber := blockNum }) db.checkpoints
    { db with checkpoints := cps }
  | none =>
    { db with
      checkpoints := db.checkpoints ++
        [{ blockNumber := blockNum, blockHash := "", chainId := defaultChainId,
           createdAt := db.clock }],
      clock := db.clock + 1 }

/-- database.go UpdateLastProcessedBlockWithHash: find the row for the default
chain; set BOTH its block number and its block hash if present, else create it. -/
def Database.updateLastProcessedBlockWithHash (db : Database) (blockNum : Int)
    (blockHash : String) : Database :=
  match db.checkpoints.find? (fun r => r.chainId == defaultChainId) with
  | some _ =>
    let cps := updateFirst (fun r => r.chainId == defaultChainId)
      (fun r => { r with blockNumber := blockNum, blockHash := blockHash }) db.checkpoints
    { db with checkpoints := cps }
  | none =>
    { db with
      checkpoints := db.checkpoints ++
        [{ blockNumber := blockNum, blockHash := blockHash, chainId := defaultChainId,
           createdAt := db.clock }],
      clock := db.clock + 1 }

/-- database.go GetLastProcessedBlockByNumber:
`First` on `WHERE block_number = ?`; `gorm.ErrRecordNotFound` when absent. -/
def Database.getLastProcessedBlockByNumber (db : Database) (blockNumber : Int) :
    Except DbError LastProcessedBlock :=
  match db.checkpoints.find? (fun r => r.blockNumber == blockNumber) with
  | some r => Except.ok r
  | none => Except.error DbError.recordNotFound

/-- The row selected by `ORDER BY created_at DESC ... First`. -/
def Database.latestCheckpoint (db : Database) : Option LastProcessedBlock :=
  db.checkpoints.foldl
    (fun acc r =>
      match acc with
      | none => some r
      | some b => if b.createdAt < r.createdAt then some r else some b)
    none

/-- database.go GetLastProcessedBlock: most recent checkpoint row's number;
`gorm.ErrRecordNotFound` is mapped to `(big.NewInt(0), nil)`. -/
def Database.getLastProcessedBlock (db : Database) : Except DbError Int :=
  match db.latestCheckpoint with
  | none => Except.ok 0
  | some r => Except.ok r.blockNumber

/-- database.go EventExists: count of marker rows with the given key. -/
def Database.eventExists (db : Database) (eventKey : String) : Bool :=
  db.processedEvents.any (fun r => r.eventKey == eventKey)

/-- database.go MarkEventAsProcessed: insert with `ON CONFLICT DO NOTHING`
against the unique index on event_key — a duplicate key inserts nothing. -/
def Database.markEventAsProcessed (db : Database) (eventKey : String) : Database :=
  if db.processedEvents.any (fun r => r.eventKey == eventKey) then db
  else { db with processedEvents :=
          db.processedEvents ++ [{ eventKey := eventKey, processed := true }] }

/-- database.go SaveEvent: plain `Create` on the events table. -/
def Database.saveEvent (db : Database) (e : IndexedEvent) : Database :=
  { db with events := db.events ++ [e] }

/-- batch flushBatch's bulk write: `Clauses(OnConflict{DoNothing}).CreateInBatches`.
The events table carries no unique constraint (see IndexedEvent), so the
conflict clause never fires and every row is inserted. -/
def Database.createEventsInBatches (db : Database) (evs : List IndexedEvent) : Database :=
  { db with events := db.events ++ evs }

/-! ## Reorg Monitor (ReorgHandler, src/unnamed/part_007) -/

/-- Chain RPC failure (BlockByNumber / BlockNumber). -/
inductive RpcError where
  | rpc
deriving DecidableEq

/-- Errors returned by DetectAndHandleReorg. -/
inductive ReorgError where
  | fetchSafeBlockFailed
  | rollbackFailed (e : DbError)
deriving DecidableEq

/-- ReorgHandler configuration. -/
structure ReorgHandler where
  depth : Nat
  maxDepth : Nat
deriving DecidableEq

/-- ReorgHandler.rollbackToBlock: delete events >= block, delete processed
markers >= block, set the checkpoint to block − 1.  The three calls run
without a surrounding transaction, so a failure leaves earlier steps
committed; the returned state is the state so far, paired with the error. -/
def ReorgHandler.rollbackToBlock (db : Database) (blockNumber : Int) :
    Database × Option DbError :=
  match db.deleteEventsFromBlock blockNumber with
  | Except.error e => (db, some e)
  | Except.ok db1 =>
    match db1.deleteProcessedEventsFromBlock blockNumber with
    | Except.error e => (db1, some e)
    | Except.ok db2 => (db2.saveLastProcessedBlock (blockNumber - 1), none)

/-- The safe block computed by DetectAndHandleReorg:
`currentBlock − depth`, clamped at the genesis block. -/
def ReorgHandler.safeBlockOf (rh : ReorgHandler) (currentBlock : Int) : Int :=
  if currentBlock - (rh.depth : Int) < 0 then 0 else currentBlock - (rh.depth : Int)

/-- The hash-comparison and conditional-rollback portion of
DetectAndHandleReorg: look up the recorded hash for the safe block
(`gorm.ErrRecordNotFound` leaves `storedBlock` nil and is tolerated); on a
non-empty differing hash, roll back. -/
def ReorgHandler.conditionalRollback (rh : ReorgHandler) (db : Database)
    (currentBlock : Int) (safeBlockHash : String) : Database × Option DbError :=
  match db.getLastProcessedBlockByNumber (rh.safeBlockOf currentBlock) with
  | Except.ok r =>
    if r.blockHash ≠ "" ∧ r.blockHash ≠ safeBlockHash then
      ReorgHandler.rollbackToBlock db (rh.safeBlockOf currentBlock)
    else (db, none)
  | Except.error _ => (db, none)

/-- ReorgHandler.DetectAndHandleReorg: compute the safe block (clamped at
genesis), fetch its canonical hash, compare with the stored hash for that
block number and roll back on mismatch, then persist the fresh hash baseline
via UpdateLastProcessedBlockWithHash. `chain` is the RPC oracle mapping a
block number to its canonical hash. -/
def ReorgHandler.detectAndHandleReorg (rh : ReorgHandler)
    (chain : Int → Except RpcError String) (db : Database) (currentBlock : Int) :
    Database × Option ReorgError :=
  match chain (rh.safeBlockOf currentBlock) with
  | Except.error _ => (db, some ReorgError.fetchSafeBlockFailed)
  | Except.ok safeBlockHash =>
    match rh.conditionalRollback db currentBlock safeBlockHash with
    | (db1, some e) => (db1, some (ReorgError.rollbackFailed e))
    | (db1, none) =>
      (db1.updateLastProcessedBlockWithHash (rh.safeBlockOf currentBlock) safeBlockHash, none)

/-- ReorgHandler.CheckReorgPeriodically: one iteration per tick.  A failed
head fetch is logged and skipped; a DetectAndHandleReorg error is logged and
the loop continues with the next tick.  `heads` is the per-tick result of
BlockNumber; `chain` is the per-tick hash oracle (index - block - hash),
letting the canonical chain change between ticks. -/
def ReorgHandler.checkReorgPeriodically (rh : ReorgHandler)
    (heads : List (Except RpcError Int)) (chain : Nat → Int → Except RpcError String)
    (db : Database) : Database :=
  (heads.enum).foldl
    (fun acc h =>
      match h.2 with
      | Except.error _ => acc
      | Except.ok cur => (rh.detectAndHandleReorg (chain h.1) acc cur).1)
    db

/-! ## Checkpoint / Resume Manager (ResumeService, src/unnamed/part_002) -/

/-- ResumeService: the in-memory cached checkpoint (`lastBlock` field). -/
structure ResumeService where
  lastBlock : Option Int
deriving DecidableEq

/-- ResumeService.GetLastProcessedBlock: return the cached value when
present; otherwise read the durable store and populate the cache. -/
def ResumeService.getLastProcessedBlock (rs : ResumeService) (db : Database) :
    Except DbError (Int × ResumeService) :=
  match rs.lastBlock with
  | some b => Except.ok (b, rs)
  | none =>
    match db.getLastProcessedBlock with
    | Except.ok n => Except.ok (n, { lastBlock := some n })
    | Except.error e => Except.error e

/-- ResumeService.SaveLastProcessedBlock: persist to the durable store, then
update the in-memory cache. -/
def ResumeService.saveLastProcessedBlock (_rs : ResumeService) (db : Database)
    (blockNum : Int) : Database × ResumeService :=
  (db.saveLastProcessedBlock blockNum, { lastBlock := some blockNum })

/-- A raw chain log as consumed by ReplayEvents (FilterLogs result). -/
structure ReplayLog where
  blockNumber : Int
  txHash : String
deriving DecidableEq

/-- State threaded through ReplayEvents: the durable store, the resume
cache, the raw events stored via db.StoreEvent, and a ghost trace `saves`
recording each completed sub-range with the checkpoint persisted after it. -/
structure ReplayState where
  db : Database
  rs : ResumeService
  stored : List ReplayLog
  saves : List ((Int × Int) × Int)
deriving DecidableEq

/-- Outcome of ReplayEvents: success, or the failing sub-range together
with the state reached so far (checkpoint reflects completed sub-ranges). -/
inductive ReplayResult where
  | ok (st : ReplayState)
  | fetchFailed (fromBlock toBlock : Int) (st : ReplayState)
  | outOfFuel
deriving DecidableEq

/-- Sub-range size used by ReplayEvents (`batchSize := big.NewInt(1000)`). -/
def replayBatchSize : Int := 1000

/-- The ReplayEvents loop.  Per iteration: endBlock = current + 1000 clamped
to toBlock; FilterLogs over [current, endBlock]; store each log; persist the
checkpoint = endBlock; continue from endBlock + 1.  A fetch failure aborts,
reporting the failing range.  `fuel` is a termination bound only; callers
pass enough fuel that `outOfFuel` is unreachable. -/
def ResumeService.replayLoop (fetch : Int → Int → Except Unit (List ReplayLog)) :
    Nat → ReplayState → Int → Int → ReplayResult
  | 0, _, _, _ => ReplayResult.outOfFuel
  | fuel + 1, st, current, toBlock =>
    if current ≤ toBlock then
      let endBlock0 := current + replayBatchSize
      let endBlock := if endBlock0 > toBlock then toBlock else endBlock0
      match fetch current endBlock with
      | Except.error _ => ReplayResult.fetchFailed current endBlock st
      | Except.ok logs =>
        let st1 := { st with stored := st.stored ++ logs }
        let dbrs := st1.rs.saveLastProcessedBlock st1.db endBlock
        let st2 : ReplayState :=
          { db := dbrs.1, rs := dbrs.2, stored := st1.stored,
            saves := st1.saves ++ [((current, endBlock), endBlock)] }
        ResumeService.replayLoop fetch fuel st2 (endBlock + 1) toBlock
    else ReplayResult.ok st

/-- ResumeService.ReplayEvents(fromBlock, toBlock). -/
def ResumeService.replayEvents (fetch : Int → Int → Except Unit (List ReplayLog))
    (st : ReplayState) (fromBlock toBlock : Int) : ReplayResult :=
  ResumeService.replayLoop fetch ((toBlock + 1 - fromBlock).toNat + 1) st fromBlock toBlock

/-- Sub-range/checkpoint trace of a replay outcome. -/
def ReplayResult.savesOf : ReplayResult → List ((Int × Int) × Int)
  | ReplayResult.ok st => st.saves
  | ReplayResult.fetchFailed _ _ st => st.saves
  | ReplayResult.outOfFuel => []

/-- Durable checkpoint after a replay outcome. -/
def ReplayResult.checkpointOf : ReplayResult → Except DbError Int
  | ReplayResult.ok st => st.db.getLastProcessedBlock
  | ReplayResult.fetchFailed _ _ st => st.db.getLastProcessedBlock
  | ReplayResult.outOfFuel => Except.error DbError.recordNotFound

/-- The failing sub-range reported by a replay outcome, if any. -/
def ReplayResult.failedRange? : ReplayResult → Option (Int × Int)
  | ReplayResult.fetchFailed a b _ => some (a, b)
  | _ => none

/-! ## Batch Persistence Engine (BatchProcessor, shared/database batch code) -/

/-- Inputs selected by the processBatches loop: an event received from the
intake channel, a flush-timeout tick, or an explicit flush request. -/
inductive BPMsg where
  | recv (e : IndexedEvent)
  | tick
  | flushReq
deriving DecidableEq

/-- State of the processBatches loop: the in-progress batch (`events` slice)
and the batches flushed to the durable store so far, in order. -/
structure BPLoop where
  pending : List IndexedEvent
  flushed : List (List IndexedEvent)
deriving DecidableEq

/-- One iteration of BatchProcessor.processBatches.
recv: append; if the batch size is reached, flush immediately and reset.
tick / flushReq: flush the pending partial batch, if any, and reset. -/
def BatchProcessor.processBatchesStep (batchSize : Nat) (bp : BPLoop) : BPMsg → BPLoop
  | BPMsg.recv e =>
    let p := bp.pending ++ [e]
    if batchSize ≤ p.length then { pending := [], flushed := bp.flushed ++ [p] }
    else { bp with pending := p }
  | BPMsg.tick =>
    if 0 < bp.pending.length then { pending := [], flushed := bp.flushed ++ [bp.pending] }
    else bp
  | BPMsg.flushReq =>
    if 0 < bp.pending.length then { pending := [], flushed := bp.flushed ++ [bp.pending] }
    else bp

/-- The processBatches loop over a sequence of selected inputs. -/
def BatchProcessor.processBatchesRun (batchSize : Nat) (bp : BPLoop) (msgs : List BPMsg) : BPLoop :=
  msgs.foldl (BatchProcessor.processBatchesStep batchSize) bp

/-- The ctx.Done branch of processBatches, taken when Close cancels the
context: the in-progress batch is flushed and the goroutine returns.
`queued` is the content of the intake channel (eventsChan) at that moment;
the loop never reads the channel again, so those records are returned as
dropped. -/
def BatchProcessor.shutdownStep (bp : BPLoop) (queued : List IndexedEvent) :
    BPLoop × List IndexedEvent :=
  (if 0 < bp.pending.length then { bp with flushed := bp.flushed ++ [bp.pending] } else bp,
   queued)

/-- Result of BatchProcessor.AddEvent. -/
inductive AddEventResult where
  | accepted
  | canceled
deriving DecidableEq

/-- BatchProcessor.AddEvent: `select` between sending on the intake channel
and ctx.Done().  The send case is ready iff the channel has space; the Done
case is ready iff the processor was cancelled; when both are ready the Go
runtime picks either branch (`pickSend` models that choice).  When not
cancelled the call blocks until space frees (modelled as eventual acceptance). -/
def BatchProcessor.addEvent (cancelled queueFull pickSend : Bool) : AddEventResult :=
  if cancelled then
    if queueFull then AddEventResult.canceled
    else if pickSend then AddEventResult.accepted else AddEventResult.canceled
  else AddEventResult.accepted

/-! ## Idempotency Gate (IdempotencyService, src/unnamed/part_008) -/

/-- The redis cache restricted to the boolean `processed:` keys. -/
abbrev IdemCache : Type := List (String × Bool)

/-- redis GET: value of the key if present. -/
def cacheGetBool (c : IdemCache) (key : String) : Option Bool :=
  (c.find? (fun p => p.1 == key)).map (fun p => p.2)

/-- redis SET: overwrite or insert. -/
def cacheSetBool (c : IdemCache) (key : String) (v : Bool) : IdemCache :=
  if c.any (fun p => p.1 == key) then
    c.map (fun p => if p.1 == key then (key, v) else p)
  else c ++ [(key, v)]

/-- IdempotencyService.IsProcessed: cache lookup first; on miss consult the
durable store and, on a durable hit, populate the cache. -/
def IdempotencyService.isProcessed (cache : IdemCache) (db : Database) (eventKey : String) :
    Bool × IdemCache :=
  match cacheGetBool cache ("processed:" ++ eventKey) with
  | some b => (b, cache)
  | none =>
    let found := db.eventExists eventKey
    let cache1 := if found then cacheSetBool cache ("processed:" ++ eventKey) true else cache
    (found, cache1)

/-- IdempotencyService.MarkProcessed: durable insert-or-ignore first, then
cache update. -/
def IdempotencyService.markProcessed (cache : IdemCache) (db : Database) (eventKey : String) :
    Database × IdemCache :=
  (db.markEventAsProcessed eventKey, cacheSetBool cache ("processed:" ++ eventKey) true)

/-! ## Indexing pipeline race model (IndexerService.processNFTEvent) -/

/-- shared/types NFTTransferEvent (hashes and addresses as hex strings). -/
structure NFTTransferEvent where
  blockNumber : Int
  txHash : String
  fromAddr : String
  toAddr : String
  tokenId : Int
  contract : String
deriving DecidableEq

/-- The idempotency key built by processNFTEvent:
`fmt.Sprintf("nft:%s:%s:%s", contract, tokenID, txHash)`. -/
def nftEventKey (e : NFTTransferEvent) : String :=
  "nft:" ++ e.contract ++ ":" ++ toString e.tokenId ++ ":" ++ e.txHash

/-- EventProcessor.ConvertNFTToIndexedEvent. -/
def convertNFTToIndexedEvent (e : NFTTransferEvent) : IndexedEvent :=
  { blockNumber := e.blockNumber, txHash := e.txHash, eventName := "NFTTransfer",
    contract := e.contract, fromAddr := e.fromAddr, toAddr := e.toAddr,
    tokenId := toString e.tokenId, value := "" }

/-- Program counter of one processNFTEvent task: idempotency check, then
BatchProcessor.AddEvent, then MarkProcessed. -/
inductive ThreadPc where
  | atCheck
  | atAdd
  | atMark
  | done
deriving DecidableEq

/-- Shared state for the dedup-race model: durable store, idempotency
cache, and the batch processor's intake queue (pre-flush). -/
structure RaceState where
  db : Database
  cache : IdemCache
  queue : List IndexedEvent
  pc0 : ThreadPc
  pc1 : ThreadPc
deriving DecidableEq

/-- One atomic step of a processNFTEvent task. -/
def processNFTEventStep (ev : NFTTransferEvent) (db : Database) (cache : IdemCache)
    (queue : List IndexedEvent) (pc : ThreadPc) :
    Database × IdemCache × List IndexedEvent × ThreadPc :=
  match pc with
  | ThreadPc.atCheck =>
    let pr := IdempotencyService.isProcessed cache db (nftEventKey ev)
    (db, pr.2, queue, if pr.1 then ThreadPc.done else ThreadPc.atAdd)
  | ThreadPc.atAdd =>
    (db, cache, queue ++ [convertNFTToIndexedEvent ev], ThreadPc.atMark)
  | ThreadPc.atMark =>
    let dc := IdempotencyService.markProcessed cache db (nftEventKey ev)
    (dc.1, dc.2, queue, ThreadPc.done)
  | ThreadPc.done => (db, cache, queue, ThreadPc.done)

/-- Run whichever of the two concurrent deliveries the scheduler picks
(`false` = task 0, `true` = task 1). -/
def raceStep (ev : NFTTransferEvent) (s : RaceState) (pick : Bool) : RaceState :=
  if pick then
    let r := processNFTEventStep ev s.db s.cache s.queue s.pc1
    { db := r.1, cache := r.2.1, queue := r.2.2.1, pc0 := s.pc0, pc1 := r.2.2.2 }
  else
    let r := processNFTEventStep ev s.db s.cache s.queue s.pc0
    { db := r.1, cache := r.2.1, queue := r.2.2.1, pc0 := r.2.2.2, pc1 := s.pc1 }

/-- Interleaved execution of two deliveries of the same event under an
explicit schedule. -/
def runRace (ev : NFTTransferEvent) (s : RaceState) (sched : List Bool) : RaceState :=
  sched.foldl (raceStep ev) s

/-- Batch flush of everything the two tasks enqueued
(flushBatch: OnConflict DoNothing + CreateInBatches). -/
def flushRaceQueue (s : RaceState) : RaceState :=
  { s with db := s.db.createEventsInBatches s.queue, queue := [] }

/-- Durable event rows carrying the given logical key
(contract, token id, tx hash). -/
def eventRowsForKey (db : Database) (contract tokenId txHash : String) : Nat :=
  (db.events.filter
    (fun e => e.contract == contract && e.tokenId == tokenId && e.txHash == txHash)).length

/-- Durable marker rows carrying the given event key. -/
def markerRowsForKey (db : Database) (key : String) : Nat :=
  (db.processedEvents.filter (fun r => r.eventKey == key)).length

/-! ## Cache-aside read path (IndexerService.GetEvents, src/unnamed/part_008) -/

/-- The redis cache restricted to the `events:` keys. -/
abbrev EventsCache : Type := List (String × List IndexedEvent)

/-- redis GET for an events key. -/
def cacheGetEvents (c : EventsCache) (key : String) : Option (List IndexedEvent) :=
  (c.find? (fun p => p.1 == key)).map (fun p => p.2)

/-- redis SET for an events key: overwrite or insert. -/
def cacheSetEvents (c : EventsCache) (key : String) (v : List IndexedEvent) : EventsCache :=
  if c.any (fun p => p.1 == key) then
    c.map (fun p => if p.1 == key then (key, v) else p)
  else c ++ [(key, v)]

/-- Go `fmt` rendering of a `*big.Int` under `%s`: decimal digits, or
`<nil>` for a nil pointer. -/
def bigIntPtrString : Option Int → String
  | none => "<nil>"
  | some n => toString n

/-- The cache key of IndexerService.GetEvents:
`fmt.Sprintf("events:%s:%s:%s", filter.EventType, filter.Contract, filter.FromBlock)`.
Only EventType, Contract and FromBlock enter the key. -/
def eventsCacheKey (f : EventFilter) : String :=
  "events:" ++ f.eventType ++ ":" ++ f.contract ++ ":" ++ bigIntPtrString f.fromBlock

/-- database.go GetEvents(filter): conditional WHERE clauses for contract,
event name and block bounds; ORDER BY block_number DESC; OFFSET/LIMIT
applied only when positive. -/
def Database.getEvents (db : Database) (f : EventFilter) : List IndexedEvent :=
  let rows := db.events.filter fun e =>
    (f.contract == "" || e.contract == f.contract) &&
    (f.eventType == "" || e.eventName == f.eventType) &&
    (match f.fromBlock with | none => true | some b => decide (b ≤ e.blockNumber)) &&
    (match f.toBlock with | none => true | some b => decide (e.blockNumber ≤ b))
  let sorted := rows.insertionSort (fun a b => b.blockNumber ≤ a.blockNumber)
  let off := if f.offset > 0 then sorted.drop f.offset.toNat else sorted
  if f.limit > 0 then off.take f.limit.toNat else off

/-- IndexerService.GetEvents: cache lookup under `eventsCacheKey`; a hit
returns the cached list as-is; a miss reads the durable store and, when the
result is non-empty, populates the cache (the fire-and-forget population is
modelled as the returned cache). -/
def IndexerService.getEvents (cache : EventsCache) (db : Database) (f : EventFilter) :
    List IndexedEvent × EventsCache :=
  match cacheGetEvents cache (eventsCacheKey f) with
  | some evs => (evs, cache)
  | none =>
    let events := db.getEvents f
    let cache1 :=
      if 0 < events.length then cacheSetEvents cache (eventsCacheKey f) events else cache
    (events, cache1)

/-! ## Concrete inputs used by the claim theorems -/

/-- An indexed event at block 35 (below the reorg safe block). -/
def c1Event35 : IndexedEvent :=
  { blockNumber := 35, txHash := "0xt35", eventName := "NFTTransfer", contract := "0xc",
    fromAddr := "0xa", toAddr := "0xb", tokenId := "8", value := "" }

/-- An indexed event at block 45 (at or above the reorg safe block). -/
def c1Event45 : IndexedEvent :=
  { blockNumber := 45, txHash := "0xt45", eventName := "NFTTransfer", contract := "0xc",
    fromAddr := "0xa", toAddr := "0xb", tokenId := "7", value := "" }

/-- Store state before the reorg check: recorded hash 0xaaa at block 40,
events at blocks 35 and 45, one processed marker. -/
def c1Db : Database :=
  { events := [c1Event35, c1Event45],
    checkpoints := [{ blockNumber := 40, blockHash := "0xaaa", chainId := defaultChainId,
                      createdAt := 0 }],
    processedEvents := [{ eventKey := "nft:0xc:7:0xt45", processed := true }],
    clock := 1 }

/-- Canonical chain after a reorg: block 40 now hashes to 0xbbb. -/
def c1Chain : Int → Except RpcError String :=
  fun n => if n == 40 then Except.ok "0xbbb" else Except.ok "0xother"

/-- Reorg handler configured with depth 10, maxDepth 100. -/
def c1Handler : ReorgHandler := { depth := 10, maxDepth := 100 }

/-- Marker-only store used for the rollback marker-delete claim. -/
def c4Db : Database :=
  { events := [], checkpoints := [],
    processedEvents := [{ eventKey := "nft:0xc:7:0xt45", processed := true }], clock := 0 }

/-- The NFT transfer delivered twice in the dedup race. -/
def c2Event : NFTTransferEvent :=
  { blockNumber := 120, txHash := "0xtx", fromAddr := "0xfrom", toAddr := "0xto",
    tokenId := 7, contract := "0xcontract" }

/-- Initial race state: empty store and cache, both tasks at the check. -/
def c2Init : RaceState :=
  { db := Database.empty, cache := [], queue := [],
    pc0 := ThreadPc.atCheck, pc1 := ThreadPc.atCheck }

/-- Schedule where both deliveries pass the idempotency check before either
marks: check0, check1, add0, add1, mark0, mark1. -/
def c2Sched : List Bool := [false, true, false, true, false, true]

/-- Final durable state of the dedup race after the batch flush. -/
def c2Final : RaceState := flushRaceQueue (runRace c2Event c2Init c2Sched)

/-- A record sitting in the batch intake channel at shutdown. -/
def c6Event : IndexedEvent :=
  { blockNumber := 12, txHash := "0xq", eventName := "NFTTransfer", contract := "0xc",
    fromAddr := "0xa", toAddr := "0xb", tokenId := "9", value := "" }

/-- Same pre-reorg store as c1Db, for the monitoring-loop claim. -/
def c7Db : Database :=
  { events := [c1Event35, c1Event45],
    checkpoints := [{ blockNumber := 40, blockHash := "0xaaa", chainId := defaultChainId,
                      createdAt := 0 }],
    processedEvents := [{ eventKey := "nft:0xc:7:0xt45", processed := true }],
    clock := 1 }

/-- Two ticks of the monitor: heads 50 then 60. -/
def c7Heads : List (Except RpcError Int) := [Except.ok 50, Except.ok 60]

/-- Hash oracle per tick: at tick 0 block 40 hashes to 0xbbb (mismatch with
the stored 0xaaa); at tick 1 block 50 hashes to 0xccc. -/
def c7Chain : Nat → Int → Except RpcError String :=
  fun i n =>
    if i == 0 then (if n == 40 then Except.ok "0xbbb" else Except.ok "0xz")
    else (if n == 50 then Except.ok "0xccc" else Except.ok "0xz")

/-- Reorg handler for the monitoring-loop claim. -/
def c7Handler : ReorgHandler := { depth := 10, maxDepth := 100 }

/-- Fetch oracle that always succeeds with no logs. -/
def c3FetchOk : Int → Int → Except Unit (List ReplayLog) := fun _ _ => Except.ok []

/-- Fetch oracle that fails exactly on the sub-range starting at 2001. -/
def c3FetchFail : Int → Int → Except Unit (List ReplayLog) :=
  fun a _ => if a == 2001 then Except.error () else Except.ok []

/-- Initial replay state: empty store, empty resume cache. -/
def c3Init : ReplayState :=
  { db := Database.empty, rs := { lastBlock := none }, stored := [], saves := [] }

/-- Batch record used when exercising the batch triggers. -/
def c5Event : IndexedEvent :=
  { blockNumber := 3, txHash := "0xp", eventName := "TokenTransfer", contract := "0xd",
    fromAddr := "0xa", toAddr := "0xb", tokenId := "", value := "42" }

/-- Reorg handler for the successful-baseline run. -/
def c9Handler : ReorgHandler := { depth := 10, maxDepth := 100 }

/-- Canonical chain whose every block hashes to 0xabc. -/
def c9Chain : Int → Except RpcError String := fun _ => Except.ok "0xabc"

/-- Filter with a bounded block range, a limit and an offset. -/
def c10F1 : EventFilter :=
  { eventType := "NFTTransfer", contract := "0xc", fromBlock := some 10,
    toBlock := some 100, limit := 5, offset := 0 }

/-- Same EventType/Contract/FromBlock as c10F1, different
ToBlock/Limit/Offset. -/
def c10F2 : EventFilter :=
  { eventType := "NFTTransfer", contract := "0xc", fromBlock := some 10,
    toBlock := some 999, limit := 1, offset := 3 }

/-- Cache holding a stored answer under the shared key of c10F1/c10F2. -/
def c10Cache : EventsCache :=
  [("events:NFTTransfer:0xc:10", [c1Event45])]

/-! ## Helper lemmas -/

/-- The conditional rollback inside DetectAndHandleReorg can never succeed:
its marker delete references the column block_number, which the
processed-marker table does not have. -/
theorem rollbackToBlock_fails (db : Database) (n : Int) :
    (ReorgHandler.rollbackToBlock db n).2 = some DbError.undefinedColumn := by
  have hin : ("block_number" ∈ indexedEventColumns) := by decide
  have hout : ¬ ("block_number" ∈ processedEventColumns) := by decide
  unfold ReorgHandler.rollbackToBlock Database.deleteEventsFromBlock
    Database.deleteProcessedEventsFromBlock sqlDeleteGeInt
  simp [hin, hout, Except.map]

/-- Behaviour of `find?` after `updateFirst` with a predicate preserved by the update. -/
theorem find?_updateFirst_of_found {α : Type} (p : α → Bool) (f : α → α)
    (hf : ∀ x, p x = true → p (f x) = true) :
    ∀ (l : List α) (a : α), l.find? p = some a →
      (updateFirst p f l).find? p = some (f a) := by
  intro l
  induction l with
  | nil => intro a h; simp [List.find?] at h
  | cons x xs ih =>
    intro a h
    cases hx : p x with
    | true =>
      rw [List.find?_cons_of_pos _ hx] at h
      injection h with h
      subst h
      unfold updateFirst
      rw [if_pos hx]
      exact List.find?_cons_of_pos _ (hf x hx)
    | false =>
      rw [List.find?_cons_of_neg _ (by simp [hx])] at h
      unfold updateFirst
      rw [if_neg (by simp [hx])]
      rw [List.find?_cons_of_neg _ (by simp [hx])]
      exact ih a h

/-- Behaviour of `find?` over an append whose left part contains no match. -/
theorem find?_append_of_none {α : Type} (p : α → Bool) (l1 l2 : List α)
    (h : l1.find? p = none) : (l1 ++ l2).find? p = l2.find? p := by
  induction l1 with
  | nil => simp
  | cons x xs ih =>
    cases hx : p x with
    | true =>
      rw [List.find?_cons_of_pos _ hx] at h
      exact absurd h (by simp)
    | false =>
      rw [List.find?_cons_of_neg _ (by simp [hx])] at h
      rw [List.cons_append, List.find?_cons_of_neg _ (by simp [hx])]
      exact ih h

/-- After UpdateLastProcessedBlockWithHash the per-chain checkpoint row
carries exactly the written block number and hash. -/
theorem checkpointRow_update (db : Database) (n : Int) (hsh : String) :
    ∃ r, (db.updateLastProcessedBlockWithHash n hsh).checkpoints.find?
          (fun x => x.chainId == defaultChainId) = some r ∧
      r.blockNumber = n ∧ r.blockHash = hsh := by
  unfold Database.updateLastProcessedBlockWithHash
  cases hfound : db.checkpoints.find? (fun r => r.chainId == defaultChainId) with
  | some r0 =>
    refine ⟨{ r0 with blockNumber := n, blockHash := hsh }, ?_, rfl, rfl⟩
    simp only [hfound]
    exact find?_updateFirst_of_found (fun r => r.chainId == defaultChainId)
      (fun r => { r with blockNumber := n, blockHash := hsh })
      (fun x hx => hx) db.checkpoints r0 hfound
  | none =>
    refine ⟨{ blockNumber := n, blockHash := hsh, chainId := defaultChainId,
              createdAt := db.clock }, ?_, rfl, rfl⟩
    simp only [hfound]
    rw [find?_append_of_none _ _ _ hfound]
    simp [List.find?]

/-! ## Claim theorems -/

/-- Claim C4: the spec says reorg rollback deletes every processed-event
marker with block number ≥ safeBlock.  The marker table has no block-number
column at all, so the delete statement always errors and no marker is ever
deleted: at block 40 on a store holding one marker, the delete returns
undefinedColumn, the rollback fails, and the marker row is retained. -/
theorem c4_rollback_marker_delete_always_fails :
    Database.deleteProcessedEventsFromBlock c4Db 40 = Except.error DbError.undefinedColumn ∧
    (ReorgHandler.rollbackToBlock c4Db 40).1.processedEvents =
      [{ eventKey := "nft:0xc:7:0xt45", processed := true }] ∧
    (ReorgHandler.rollbackToBlock c4Db 40).2 = some DbError.undefinedColumn :=
  ⟨rfl, rfl, rfl⟩

/-- Claim C1: with depth 10 and head 50, safeBlock is 40; on a hash
mismatch at block 40 the spec expects a successful run ending with every
event row ≥ 40 deleted and checkpoint 39.  On the code the rollback fails
after deleting the event rows (the marker delete references a nonexistent
column), DetectAndHandleReorg returns that error instead of succeeding,
and the checkpoint stays at 40 — it is never set to 39. -/
theorem c1_reorg_boundary_rollback_errors :
    (c1Handler.detectAndHandleReorg c1Chain c1Db 50).2 =
      some (ReorgError.rollbackFailed DbError.undefinedColumn) ∧
    (c1Handler.detectAndHandleReorg c1Chain c1Db 50).1.events = [c1Event35] ∧
    (c1Handler.detectAndHandleReorg c1Chain c1Db 50).1.getLastProcessedBlock =
      Except.ok 40 :=
  ⟨rfl, rfl, rfl⟩

/-- Claim C7: the spec demands that a failed rollback halt forward progress
with no checkpoint advancement.  On the code the periodic monitor logs the
failure and continues: at tick 0 (head 50) the rollback fails, yet at
tick 1 (head 60) the next check runs normally and moves the per-chain
checkpoint forward from 40 to 50. -/
theorem c7_monitor_advances_after_failed_rollback :
    (c7Handler.detectAndHandleReorg (c7Chain 0) c7Db 50).2 =
      some (ReorgError.rollbackFailed DbError.undefinedColumn) ∧
    (c7Handler.checkReorgPeriodically c7Heads c7Chain c7Db).getLastProcessedBlock =
      Except.ok 50 :=
  ⟨rfl, rfl⟩

/-- Claim C2: two concurrent deliveries of the same
(contract, discriminator, txHash) that both pass the idempotency check
before either marks end with exactly one marker row (unique event_key) but
TWO rows in the events table — the events table has no unique constraint on
the logical key, so the insert-or-ignore flush inserts both copies. -/
theorem c2_dedup_race_leaves_two_event_rows :
    eventRowsForKey c2Final.db "0xcontract" "7" "0xtx" = 2 ∧
    markerRowsForKey c2Final.db (nftEventKey c2Event) = 1 :=
  ⟨rfl, rfl⟩

/-- Claim C6: the spec requires Close to drain every accepted-but-unflushed
record (including records still queued in the intake channel) and
post-shutdown AddEvent calls to fail.  On the code the ctx.Done branch
flushes only the in-progress batch, so a record still in the intake channel
is dropped (nothing reaches the store), and a post-cancel AddEvent whose
select picks the ready send branch is silently accepted. -/
theorem c6_shutdown_drops_intake_and_addEvent_may_accept :
    BatchProcessor.shutdownStep { pending := [], flushed := [] } [c6Event] =
      ({ pending := [], flushed := [] }, [c6Event]) ∧
    BatchProcessor.addEvent true false true = AddEventResult.accepted :=
  ⟨rfl, rfl⟩

/-- Claim C3: ReplayEvents(1000, 2500) with sub-range size 1000 processes
[1000,2000] then [2001,2500]; the persisted checkpoint is 2000 after the
first sub-range and 2500 after the second; if fetching the second sub-range
fails, the error names range [2001,2500] and the checkpoint stays 2000. -/
theorem c3_replay_subranges_checkpoints_and_failure :
    ((ResumeService.replayEvents c3FetchOk c3Init 1000 2500).savesOf =
        [((1000, 2000), 2000), ((2001, 2500), 2500)] ∧
      (ResumeService.replayEvents c3FetchOk c3Init 1000 2500).checkpointOf =
        Except.ok 2500 ∧
      (ResumeService.replayEvents c3FetchOk c3Init 1000 2500).failedRange? = none) ∧
    ((ResumeService.replayEvents c3FetchFail c3Init 1000 2500).savesOf =
        [((1000, 2000), 2000)] ∧
      (ResumeService.replayEvents c3FetchFail c3Init 1000 2500).checkpointOf =
        Except.ok 2000 ∧
      (ResumeService.replayEvents c3FetchFail c3Init 1000 2500).failedRange? =
        some (2001, 2500)) :=
  ⟨⟨rfl, rfl, rfl⟩, rfl, rfl, rfl⟩

/-- Claim C9: every successful run of DetectAndHandleReorg — including runs
with matching hashes and no rollback — writes safeBlock = max(0, head −
depth) into the block-number field of the per-chain checkpoint row together
with the newly observed hash; the baseline update rewrites the block
number, not just the hash. -/
theorem c9_detect_success_checkpoint_holds_safeBlock
    (rh : ReorgHandler) (chain : Int → Except RpcError String) (db db' : Database)
    (cur : Int) (h : rh.detectAndHandleReorg chain db cur = (db', none)) :
    ∃ hsh r, chain (max (cur - (rh.depth : Int)) 0) = Except.ok hsh ∧
      db'.checkpoints.find? (fun x => x.chainId == defaultChainId) = some r ∧
      r.blockNumber = max (cur - (rh.depth : Int)) 0 ∧ r.blockHash = hsh := by
  have hmax : rh.safeBlockOf cur = max (cur - (rh.depth : Int)) 0 := by
    unfold ReorgHandler.safeBlockOf
    split <;> omega
  unfold ReorgHandler.detectAndHandleReorg at h
  cases hc : chain (rh.safeBlockOf cur) with
  | error e =>
    simp only [hc] at h
    simp at h
  | ok hsh =>
    simp only [hc] at h
    cases hcr : rh.conditionalRollback db cur hsh with
    | mk db1 o =>
      cases o with
      | some e =>
        simp only [hcr] at h
        simp at h
      | none =>
        simp only [hcr] at h
        have hdb : db' = db1.updateLastProcessedBlockWithHash (rh.safeBlockOf cur) hsh := by
          have := congrArg Prod.fst h
          simpa using this.symm
        obtain ⟨r, hr, hn, hh⟩ := checkpointRow_update db1 (rh.safeBlockOf cur) hsh
        refine ⟨hsh, r, ?_, ?_, ?_, hh⟩
        · rw [← hmax]; exact hc
        · rw [hdb]; exact hr
        · rw [← hmax]; exact hn

/-- Witness for C9 at depth 10 and head 50 on an empty store. -/
theorem c9_detect_success_checkpoint_holds_safeBlock_witness :
    ∃ hsh r, c9Chain (max ((50 : Int) - (c9Handler.depth : Int)) 0) = Except.ok hsh ∧
      ((c9Handler.detectAndHandleReorg c9Chain Database.empty 50).1).checkpoints.find?
          (fun x => x.chainId == defaultChainId) = some r ∧
      r.blockNumber = max ((50 : Int) - (c9Handler.depth : Int)) 0 ∧ r.blockHash = hsh :=
  c9_detect_success_checkpoint_holds_safeBlock c9Handler c9Chain Database.empty
    ((c9Handler.detectAndHandleReorg c9Chain Database.empty 50).1) 50 rfl

/-- Claim C8: the checkpoint read returns the in-memory cached value when
present; otherwise it loads the value from the durable store (caching it);
and when no checkpoint row exists the durable read yields block 0 with no
error. -/
theorem c8_checkpoint_read_cache_then_store_default_zero
    (rs : ResumeService) (db : Database) (b n : Int) :
    (rs.lastBlock = some b → rs.getLastProcessedBlock db = Except.ok (b, rs)) ∧
    (rs.lastBlock = none → db.getLastProcessedBlock = Except.ok n →
      rs.getLastProcessedBlock db = Except.ok (n, { lastBlock := some n })) ∧
    (db.checkpoints = [] → db.getLastProcessedBlock = Except.ok 0) := by
  refine ⟨?_, ?_, ?_⟩
  · intro h
    simp [ResumeService.getLastProcessedBlock, h]
  · intro h hn
    simp [ResumeService.getLastProcessedBlock, h, hn]
  · intro h
    simp [Database.getLastProcessedBlock, Database.latestCheckpoint, h]

/-- Witness for C8: cached read, store-backed read, and the empty-store
default. -/
theorem c8_checkpoint_read_cache_then_store_default_zero_witness :
    (({ lastBlock := some 5 } : ResumeService).getLastProcessedBlock Database.empty =
      Except.ok (5, { lastBlock := some 5 })) ∧
    (({ lastBlock := none } : ResumeService).getLastProcessedBlock Database.empty =
      Except.ok (0, { lastBlock := some 0 })) ∧
    Database.empty.getLastProcessedBlock = Except.ok 0 := by
  refine ⟨?_, ?_, ?_⟩
  · exact (c8_checkpoint_read_cache_then_store_default_zero
      { lastBlock := some 5 } Database.empty 5 0).1 rfl
  · exact (c8_checkpoint_read_cache_then_store_default_zero
      { lastBlock := none } Database.empty 0 0).2.1 rfl rfl
  · exact (c8_checkpoint_read_cache_then_store_default_zero
      { lastBlock := none } Database.empty 0 0).2.2 rfl

/-- Receiving events one by one without any timer tick: once the in-progress
batch reaches the batch size, the whole batch is flushed and the pending
buffer is reset. -/
theorem processBatchesRun_recv_reaches_batchSize (B : Nat) :
    ∀ (evs p : List IndexedEvent) (fl : List (List IndexedEvent)),
      p.length + evs.length = B → 0 < evs.length →
      BatchProcessor.processBatchesRun B { pending := p, flushed := fl }
          (evs.map BPMsg.recv) =
        { pending := [], flushed := fl ++ [p ++ evs] } := by
  intro evs
  induction evs with
  | nil =>
    intro p fl h h0
    simp at h0
  | cons e rest ih =>
    intro p fl h h0
    cases rest with
    | nil =>
      simp only [List.length_cons, List.length_nil] at h
      have hlen : B ≤ p.length + 1 := by omega
      simp [BatchProcessor.processBatchesRun, BatchProcessor.processBatchesStep, hlen]
    | cons e2 rest2 =>
      simp only [List.length_cons] at h
      have hlt : ¬ B ≤ p.length + 1 := by omega
      have hstep : BatchProcessor.processBatchesStep B { pending := p, flushed := fl }
          (BPMsg.recv e) = { pending := p ++ [e], flushed := fl } := by
        simp [BatchProcessor.processBatchesStep, hlt]
      have hrec := ih (p ++ [e]) fl
        (by simp only [List.length_append, List.length_cons, List.length_nil]; omega)
        (by simp)
      simp only [List.map_cons, BatchProcessor.processBatchesRun, List.foldl_cons] at hrec ⊢
      rw [hstep, hrec]
      simp

/-- Claim C5: with batch size B, enqueuing B events flushes the whole batch
immediately (no tick in the input sequence), a timer tick with a nonempty
pending partial batch flushes it, and in both cases the pending buffer is
empty immediately after the flush. -/
theorem c5_batch_size_and_timeout_triggers (B : Nat) (evs p : List IndexedEvent)
    (fl : List (List IndexedEvent)) (hB : 0 < B) (hlen : evs.length = B)
    (hp : 0 < p.length) :
    BatchProcessor.processBatchesRun B { pending := [], flushed := [] }
        (evs.map BPMsg.recv) = { pending := [], flushed := [evs] } ∧
    BatchProcessor.processBatchesStep B { pending := p, flushed := fl } BPMsg.tick =
      { pending := [], flushed := fl ++ [p] } := by
  constructor
  · have := processBatchesRun_recv_reaches_batchSize B evs [] []
      (by simpa using hlen) (by omega)
    simpa using this
  · simp [BatchProcessor.processBatchesStep, hp]

/-- Witness for C5 at batch size 3. -/
theorem c5_batch_size_and_timeout_triggers_witness :
    BatchProcessor.processBatchesRun 3 { pending := [], flushed := [] }
        ([c5Event, c5Event, c5Event].map BPMsg.recv) =
      { pending := [], flushed := [[c5Event, c5Event, c5Event]] } ∧
    BatchProcessor.processBatchesStep 3 { pending := [c5Event], flushed := [] }
        BPMsg.tick = { pending := [], flushed := [[c5Event]] } :=
  c5_batch_size_and_timeout_triggers 3 [c5Event, c5Event, c5Event] [c5Event] []
    (by decide) (by decide) (by decide)

/-- Claim C10: the GetEvents cache key is built only from the filter's
EventType, Contract and FromBlock; two filters agreeing on those three
fields share the cache key, and on a cache hit GetEvents returns the
identical stored result regardless of the filters' ToBlock, Limit and
Offset. -/
theorem c10_getEvents_cache_key_ignores_toBlock_limit_offset
    (cache : EventsCache) (db : Database) (f1 f2 : EventFilter)
    (het : f1.eventType = f2.eventType) (hco : f1.contract = f2.contract)
    (hfb : f1.fromBlock = f2.fromBlock) :
    eventsCacheKey f1 = eventsCacheKey f2 ∧
    ((cacheGetEvents cache (eventsCacheKey f1)).isSome →
      (IndexerService.getEvents cache db f1).1 = (IndexerService.getEvents cache db f2).1) := by
  have hkey : eventsCacheKey f1 = eventsCacheKey f2 := by
    simp [eventsCacheKey, het, hco, hfb]
  refine ⟨hkey, ?_⟩
  intro hhit
  rw [hkey] at hhit
  unfold IndexerService.getEvents
  rw [hkey]
  cases hcase : cacheGetEvents cache (eventsCacheKey f2) with
  | some evs => simp [hcase]
  | none =>
    rw [hcase] at hhit
    simp at hhit

/-- Witness for C10: two filters differing only in ToBlock/Limit/Offset hit
the same cached answer. -/
theorem c10_getEvents_cache_key_ignores_toBlock_limit_offset_witness :
    eventsCacheKey c10F1 = eventsCacheKey c10F2 ∧
    (IndexerService.getEvents c10Cache Database.empty c10F1).1 =
      (IndexerService.getEvents c10Cache Database.empty c10F2).1 := by
  have h := c10_getEvents_cache_key_ignores_toBlock_limit_offset
    c10Cache Database.empty c10F1 c10F2 rfl rfl rfl
  exact ⟨h.1, h.2 (by decide)⟩
